import Mathlib

set_option maxRecDepth 40000

/-!
Shallow embedding of the database connector layer of a Python
test-automation project: `src/db/db_connector.py` (class `DBConnector`)
and `src/utils/data_helper.py` (`escape_single_quotes`), together with
theorems checking the natural-language specification of that layer
against the embedded code.

Modelling conventions: machine effects (the database server, the
operating system, randomness) are supplied as explicit oracles; every
`cursor.execute` / `cursor.executemany` call consumes one entry of an
outcome stream `env : Nat → ExecOut` at a running counter.  Observable
side effects (statements sent, commits, rollbacks, sleeps, reconnects,
cleanup steps) are collected in an action trace.  Strings are embedded
with Python semantics for `strip`, `lower`, `split` and substring
containment, written out on `List Char`.
-/

namespace DB

/-- Single-quote character (code point 39), written without a quote literal. -/
def sq : Char := Char.ofNat 39

/-- Python whitespace test used by `str.strip` and `str.split`
(space, tab, newline, carriage return, vertical tab, form feed). -/
def pySpace (c : Char) : Bool :=
  c = ' ' || c = '\t' || c = '\n' || c = '\r' || c = Char.ofNat 11 || c = Char.ofNat 12

/-- Python `str.strip()` on a character list. -/
def pyStrip (l : List Char) : List Char :=
  ((l.dropWhile pySpace).reverse.dropWhile pySpace).reverse

/-- Python `str.lower()` (ASCII case folding). -/
def pyLowerL (l : List Char) : List Char := l.map Char.toLower

/-- Test on an optional character, false when absent. -/
def optB (w : Char → Bool) : Option Char → Bool
  | none => false
  | some c => w c

/-- Concatenation of the images of a list under a list-valued function. -/
def flatList (f : α → List β) : List α → List β
  | [] => []
  | a :: l => f a ++ flatList f l

/-- The regex word-character class `\w` restricted to ASCII:
letters, digits and underscore. -/
def pyWord (c : Char) : Bool := c.isAlphanum || c = '_'

/-- Translation of `utils/data_helper.escape_single_quotes`, namely
`re.sub` with word-character lookbehind and lookahead replacing a single
quote by two.  The scan walks left to right; lookarounds inspect the
original text, so each position is judged by its original neighbours.
The word-character class is a parameter `w`. -/
def escapeAux (w : Char → Bool) : Option Char → List Char → List Char
  | _, [] => []
  | prev, c :: rest =>
    if c = sq && optB w prev && optB w rest.head? then
      sq :: sq :: escapeAux w (some c) rest
    else
      c :: escapeAux w (some c) rest

/-- `escape_single_quotes` on a string. -/
def escapeSingleQuotes (w : Char → Bool) (s : String) : String :=
  String.mk (escapeAux w none s.data)

/-- Each character of a list paired with its predecessor and successor. -/
def triples : Option Char → List Char → List (Option Char × Char × Option Char)
  | _, [] => []
  | prev, c :: rest => (prev, c, rest.head?) :: triples (some c) rest

lemma escapeAux_eq_triples (w : Char → Bool) :
    ∀ (l : List Char) (prev : Option Char),
      escapeAux w prev l =
        flatList
          (fun t => if t.2.1 = sq && optB w t.1 && optB w t.2.2 then [sq, sq] else [t.2.1])
          (triples prev l)
  | [], _ => rfl
  | c :: rest, prev => by
    by_cases h : (c = sq && optB w prev && optB w rest.head?) = true
    · simp only [escapeAux, triples, flatList, h, if_pos]
      simp [escapeAux_eq_triples w rest (some c)]
    · simp only [escapeAux, triples, flatList, h, if_neg]
      simp [h, escapeAux_eq_triples w rest (some c)]

/-- C9: for every statement string, the automatic escaping applied by
`run_query` before execution doubles exactly those single quotes whose
immediate neighbours on both sides are word characters, and leaves every
other character unchanged, in order.  The right-hand side maps each
character, paired with its original neighbours, through that local rule,
so callers need not pre-escape embedded apostrophes and no other part of
the statement is rewritten. -/
theorem c9_escape_spec (w : Char → Bool) (s : String) :
    (escapeSingleQuotes w s).data =
      flatList
        (fun t => if t.2.1 = sq && optB w t.1 && optB w t.2.2 then [sq, sq] else [t.2.1])
        (triples none s.data) :=
  escapeAux_eq_triples w s.data none

/-- Isolation levels of the primary connection. -/
inductive IsoLevel
  | readCommitted
  | other (n : Nat)
deriving DecidableEq

/-- Error classes of the database client library, as the connector
distinguishes them: the three looked-up error codes, the generic
operational error, and everything else (propagated uncaught). -/
inductive PgErr
  | deadlock
  | inFailedTx
  | connFailure
  | operational
  | otherErr (msg : String)
deriving DecidableEq

/-- The classes caught by the retry loop in `run_query`
(`DEADLOCK_DETECTED`, `IN_FAILED_SQL_TRANSACTION`, `CONNECTION_FAILURE`,
`OperationalError`). -/
def isTransient : PgErr → Bool
  | .deadlock | .inFailedTx | .connFailure | .operational => true
  | .otherErr _ => false

/-- The connection-class test of the retry loop:
`isinstance(e, (OperationalError, CONNECTION_FAILURE))`. -/
def isConnClass : PgErr → Bool
  | .connFailure | .operational => true
  | _ => false

/-- Failures surfaced by query execution: either a fatal message raised
by the connector itself or a propagated client-library error. -/
inductive RunFail
  | fatal (msg : String)
  | pg (e : PgErr)
deriving DecidableEq

/-- Outcome of one `cursor.execute` / `cursor.executemany` round trip:
a result-set description (column names, absent for row-less statements)
and rows, or an error. -/
inductive ExecOut
  | ok (descr : Option (List String)) (rows : List (List Int))
  | err (e : PgErr)
deriving DecidableEq

/-- True when the outcome is an error of a transient class. -/
def errTransient : ExecOut → Bool
  | .err e => isTransient e
  | .ok _ _ => false

/-- True when the outcome is an error of connection class. -/
def connClassOut : ExecOut → Bool
  | .err e => isConnClass e
  | .ok _ _ => false

/-- Observable actions of the connector, in the order performed. -/
inductive Action
  | exec (sql : String) (np : Nat)
  | execMany (sql : String) (batchLen : Nat)
  | commit
  | rollback
  | sleep (d : ℚ)
  | reconnected
  | setIso (lvl : IsoLevel)
  | closePool
  | closeConn
  | termTunnel
deriving DecidableEq

/-- The mutable state of a `DBConnector` instance, restricted to the
fields the specified behaviour depends on. -/
structure ConnState where
  hasConn : Bool
  connClosed : Bool
  hasPool : Bool
  hasTunnel : Bool
  isCi : Bool
  isolation : IsoLevel
  prepared : List String
deriving DecidableEq

/-- Translation of `DBConnector.reconnect` (lines 334 to 356): terminate
the previous forwarding process when present and not in CI, restart
forwarding when not in CI, re-open the primary connection, and close and
recreate the pool when one exists.  The method touches no other field;
in particular `prepared_statements` is left as it was. -/
def reconnectFn (st : ConnState) : ConnState × List Action :=
  let t1 : List Action := if st.hasTunnel && !st.isCi then [.termTunnel] else []
  let p1 : List Action := if st.hasPool then [.closePool] else []
  ({ st with
      hasTunnel := !st.isCi
      hasConn := true
      connClosed := false },
   t1 ++ [.reconnected] ++ p1)

/-- C1: the prepared-statement registry is NOT cleared by `reconnect`.
A connector holding one registered statement name still holds it after a
reconnect, so the first use of that name after the reconnect takes the
`EXECUTE` branch of `execute_prepared_statement` instead of re-issuing
`PREPARE`.  This contradicts the specified invariant that the registry
is empty immediately after any reconnect; the claim describes the
evident intent and the code omits the reset, so it is recorded as a code
bug, with this theorem evaluating the embedded code at the failing
input. -/
theorem c1_reconnect_keeps_registry :
    ((reconnectFn
        { hasConn := true, connClosed := false, hasPool := true, hasTunnel := true,
          isCi := false, isolation := .readCommitted,
          prepared := ["stmt_q1"] }).1.prepared = ["stmt_q1"]) ∧
    ((reconnectFn
        { hasConn := true, connClosed := false, hasPool := true, hasTunnel := true,
          isCi := false, isolation := .readCommitted,
          prepared := ["stmt_q1"] }).1.prepared ≠ []) := by
  constructor
  · rfl
  · decide

/-- Translation of the tunnel-terminate step of `DBConnector.__exit__`:
guarded by the presence of the process handle and the CI flag; raising
is driven by the oracle `ft`. -/
def exitTunnelStep (st : ConnState) (ft : Bool) : List Action × Option RunFail :=
  if st.hasTunnel && !st.isCi then
    if ft then ([.termTunnel], some (.pg (.otherErr "terminate failed")))
    else ([.termTunnel], none)
  else ([], none)

/-- Translation of the connection-close step of `DBConnector.__exit__`
followed by the tunnel step; an exception propagates at once. -/
def exitConnStep (st : ConnState) (fc ft : Bool) : List Action × Option RunFail :=
  if st.hasConn then
    if fc then ([.closeConn], some (.pg (.otherErr "close failed")))
    else
      let r := exitTunnelStep st ft
      (.closeConn :: r.1, r.2)
  else exitTunnelStep st ft

/-- Translation of `DBConnector.__exit__` (lines 117 to 137): close the
pool if one exists, close the connection if one exists, terminate the
forwarding process if one exists and not in CI.  Each step sits behind a
presence check only; the method contains no exception handling, so a
step that raises ends the method and the later steps do not run.  The
oracle booleans say which performed steps raise. -/
def exitCleanup (st : ConnState) (fp fc ft : Bool) : List Action × Option RunFail :=
  if st.hasPool then
    if fp then ([.closePool], some (.pg (.otherErr "closeall failed")))
    else
      let r := exitConnStep st fc ft
      (.closePool :: r.1, r.2)
  else exitConnStep st fc ft

/-- The cleanup steps whose resources are present, in source order. -/
def presentSteps (st : ConnState) : List Action :=
  (if st.hasPool then [Action.closePool] else []) ++
  (if st.hasConn then [Action.closeConn] else []) ++
  (if st.hasTunnel && !st.isCi then [Action.termTunnel] else [])

/-- C2 counterexample: with all three resources present, an exception
raised while closing the pool propagates out of `__exit__` and the
connection-close and tunnel-terminate steps never run, refuting the
claim that a failure in one cleanup step cannot prevent the later steps
from running. -/
theorem c2_counterexample :
    (exitCleanup
        { hasConn := true, connClosed := false, hasPool := true, hasTunnel := true,
          isCi := false, isolation := .readCommitted, prepared := [] }
        true false false).1 = [Action.closePool] ∧
    Action.closeConn ∉
      (exitCleanup
        { hasConn := true, connClosed := false, hasPool := true, hasTunnel := true,
          isCi := false, isolation := .readCommitted, prepared := [] }
        true false false).1 ∧
    Action.termTunnel ∉
      (exitCleanup
        { hasConn := true, connClosed := false, hasPool := true, hasTunnel := true,
          isCi := false, isolation := .readCommitted, prepared := [] }
        true false false).1 ∧
    (exitCleanup
        { hasConn := true, connClosed := false, hasPool := true, hasTunnel := true,
          isCi := false, isolation := .readCommitted, prepared := [] }
        true false false).2 ≠ none := by
  refine ⟨rfl, ?_, ?_, ?_⟩ <;> decide

/-- C2 as amended: for every connector state at scope exit, including
states left by a partially failed activation, deactivation performs
exactly the cleanup steps whose resource exists, in the order pool,
connection, tunnel, each behind its own presence check, and raises
nothing, provided no performed step itself raises; a step that raises
propagates its exception and the later steps are skipped (see the
counterexample). -/
theorem c2_exit_presence_guarded (st : ConnState) :
    (exitCleanup st false false false).1 = presentSteps st ∧
    (exitCleanup st false false false).2 = none := by
  unfold exitCleanup exitConnStep exitTunnelStep presentSteps
  rcases hp : st.hasPool <;> rcases hc : st.hasConn <;>
    rcases ht : (st.hasTunnel && !st.isCi) <;> simp [hp, hc, ht]

/-- Translation of `DBConnector.get_random_available_port` (lines 64 to
77): draw up to one hundred candidate ports from the random stream
`rnd` (starting at stream index `idx`) and return the first one whose
probe finds it free, together with the advanced stream index; when all
one hundred candidates are taken, the method raises. -/
def pickPort (rnd : Nat → Nat) (free : Nat → Bool) : Nat → Nat → Option (Nat × Nat)
  | _, 0 => none
  | idx, tries + 1 =>
    let p := rnd idx
    if free p then some (p, idx + 1) else pickPort rnd free (idx + 1) tries

/-- Translation of the port-forwarding loop of
`DBConnector.port_forward_postgres` (lines 200 to 228), entered after a
successful login: on each attempt pick a fresh random free port, spawn
the forwarding process, wait the settle time, and poll it; a live
process ends the loop with that port, a dead one is terminated and the
loop retries, and exhausting `max_retries` attempts raises the generic
exception with the fixed message.  `alive i` tells whether the process
of attempt `i` (zero-based) survives the settle time.  The returned
list records the local port selected by each attempt made. -/
def portForwardLoop (rnd : Nat → Nat) (free : Nat → Bool) (alive : Nat → Bool) :
    Nat → Nat → Nat → Except String Nat × List Nat × Nat
  | _, idx, 0 => (.error "Port-forwarding failed after multiple attempts.", [], idx)
  | attempt, idx, remaining + 1 =>
    match pickPort rnd free idx 100 with
    | none => (.error "Failed to find an available port for port-forwarding.", [], idx)
    | some (p, idx') =>
      if alive attempt then (.ok p, [p], idx')
      else
        let r := portForwardLoop rnd free alive (attempt + 1) idx' remaining
        (r.1, p :: r.2.1, r.2.2)

/-- The whole retry phase of `port_forward_postgres` with `max_retries`
attempts, starting from the beginning of the random stream. -/
def portForwardPostgres (rnd : Nat → Nat) (free : Nat → Bool) (alive : Nat → Bool)
    (maxRetries : Nat) : Except String Nat × List Nat × Nat :=
  portForwardLoop rnd free alive 0 0 maxRetries

/-- C7 counterexample: with `max_retries = 2`, a random stream that
happens to yield port 30005 both times (every draw is independent, so
repeats are possible), every port free, and a forwarding process that
exits immediately on every attempt, the loop makes exactly two attempts
and raises the fatal exception, but the two attempts selected the same
local port, refuting the claim that each attempt selects a different
port. -/
theorem c7_counterexample :
    portForwardPostgres (fun _ => 30005) (fun _ => true) (fun _ => false) 2 =
      (.error "Port-forwarding failed after multiple attempts.", [30005, 30005], 2) ∧
    ¬ ([30005, 30005].Pairwise (· ≠ ·)) := by
  constructor
  · rfl
  · decide

/-- C7 as amended: if the forwarding process fails to stabilize on
every attempt, tunnel establishment makes exactly `max_retries`
attempts, each drawing a fresh local port from the random stream (the
draws are independent and are not guaranteed distinct across attempts),
and then fails fatally by raising the generic exception whose message
is the fixed text shown (the failure the specification taxonomy calls
`TunnelSetupError`; no dedicated exception class exists in the code).
Stated for a stream whose every candidate probes free, so each attempt
selects the next stream element. -/
theorem c7_forward_exhaustion (rnd : Nat → Nat) (free alive : Nat → Bool) (n : Nat)
    (hFree : ∀ p, free p = true) (hAlive : ∀ i, alive i = false) :
    portForwardPostgres rnd free alive n =
      (.error "Port-forwarding failed after multiple attempts.",
       (List.range n).map (fun i => rnd i), n) := by
  have main : ∀ (remaining attempt idx : Nat),
      portForwardLoop rnd free alive attempt idx remaining =
        (.error "Port-forwarding failed after multiple attempts.",
         (List.range remaining).map (fun i => rnd (idx + i)), idx + remaining) := by
    intro remaining
    induction remaining with
    | zero => intro attempt idx; simp [portForwardLoop]
    | succ r ih =>
      intro attempt idx
      have hpick : pickPort rnd free idx 100 = some (rnd idx, idx + 1) := by
        simp [pickPort, hFree (rnd idx)]
      rw [portForwardLoop, hpick]
      simp only [hAlive attempt, if_neg]
      rw [ih (attempt + 1) (idx + 1)]
      have hlist : (List.range (r + 1)).map (fun i => rnd (idx + i)) =
          rnd idx :: (List.range r).map (fun i => rnd (idx + 1 + i)) := by
        rw [List.range_succ_eq_map]
        simp only [List.map_cons, List.map_map]
        refine congrArg₂ List.cons (by simp) ?_
        have hf : ((fun i => rnd (idx + i)) ∘ Nat.succ) = (fun i => rnd (idx + 1 + i)) := by
          funext i
          simp only [Function.comp_apply]
          exact congrArg rnd (by omega)
        rw [hf]
      have hn : idx + 1 + r = idx + (r + 1) := by omega
      rw [hlist, hn]
      simp
  simpa [portForwardPostgres] using main n 0 0

/-- C7 witness: the amended theorem applied at `max_retries = 2` with a
concrete stream, all ports free and a process that always exits. -/
theorem c7_forward_exhaustion_witness :
    (∀ p, (fun _ : Nat => true) p = true) ∧
    (∀ i, (fun _ : Nat => false) i = false) ∧
    portForwardPostgres (fun i => 30000 + i) (fun _ => true) (fun _ => false) 2 =
      (.error "Port-forwarding failed after multiple attempts.", [30000, 30001], 2) := by
  refine ⟨fun _ => rfl, fun _ => rfl, ?_⟩
  have h := c7_forward_exhaustion (fun i => 30000 + i) (fun _ => true) (fun _ => false) 2
    (fun _ => rfl) (fun _ => rfl)
  simpa using h

/-- Translation of the statement text built by `DBConnector.batch_insert`
(line 527): the f-string whose literal text begins with an at sign
before the word INSERT, with the joined column list and one `%s`
placeholder per column. -/
def batchQuery (table : String) (cols : List String) : String :=
  "@INSERT INTO " ++ table ++ " (" ++ String.intercalate ", " cols ++ ") VALUES (" ++
    String.intercalate ", " (cols.map fun _ => "%s") ++ ")"

/-- The slices `values_list[i:i+batch_size]` visited by the chunk loop
of `batch_insert` (`for i in range(0, len(values_list), batch_size)`),
with an explicit fuel bound equal to the list length, always sufficient
for a positive batch size. -/
def chunksGo (B : Nat) : List (List Int) → Nat → List (List (List Int))
  | [], _ => []
  | _ :: _, 0 => []
  | a :: rest, fuel + 1 => (a :: rest).take B :: chunksGo B ((a :: rest).drop B) fuel

/-- The chunk list of `batch_insert` for a given batch size. -/
def batchChunks (B : Nat) (l : List (List Int)) : List (List (List Int)) :=
  chunksGo B l l.length

/-- The chunk loop of `batch_insert`: each chunk is one `executemany`
round trip consuming one oracle outcome; a successful chunk is followed
immediately by a commit, a failing chunk is rolled back and its error
re-raised, ending the loop. -/
def batchLoop (env : Nat → ExecOut) (q : String) :
    Nat → List (List (List Int)) → Except RunFail Bool × Nat × List Action
  | ctr, [] => (.ok true, ctr, [])
  | ctr, c :: rest =>
    match env ctr with
    | .ok _ _ =>
      let r := batchLoop env q (ctr + 1) rest
      (r.1, r.2.1, .execMany q c.length :: .commit :: r.2.2)
    | .err e => (.error (.pg e), ctr + 1, [.execMany q c.length, .rollback])

/-- Translation of `DBConnector.batch_insert` (lines 503 to 538): an
empty row list returns True at once; otherwise the rows are cut into
consecutive `batch_size` slices and the chunk loop runs.  The connector
state carries no field this method changes. -/
def batchInsert (env : Nat → ExecOut) (st : ConnState) (ctr : Nat)
    (table : String) (cols : List String) (values : List (List Int)) (B : Nat) :
    Except RunFail Bool × ConnState × Nat × List Action :=
  if values.isEmpty then (.ok true, st, ctr, [])
  else
    let q := batchQuery table cols
    let r := batchLoop env q ctr (batchChunks B values)
    (r.1, st, r.2.1, r.2.2)

/-- C3: the statement text that `batch_insert` executes for every chunk
carries a stray leading at sign, so what is sent is not an INSERT
statement at all and every chunk fails on the server instead of
inserting its rows; the claim (chunking into multi-row INSERTs with a
commit per chunk) describes the evident intent, and the at sign in the
f-string is a slip, so this is recorded as a code bug.  The theorem
evaluates the embedded code at the failing input: one row into table t,
column a. -/
theorem c3_batch_query_at_input :
    batchQuery "t" ["a"] = "@INSERT INTO t (a) VALUES (%s)" ∧
    (batchQuery "t" ["a"]).data.head? = some '@' ∧
    ¬ ("INSERT".data <+: (batchQuery "t" ["a"]).data) ∧
    (batchInsert (fun _ => .err (.otherErr "syntax error at or near @"))
        { hasConn := true, connClosed := false, hasPool := true, hasTunnel := true,
          isCi := false, isolation := .readCommitted, prepared := [] }
        0 "t" ["a"] [[1]] 1000).2.2.2 =
      [.execMany (batchQuery "t" ["a"]) 1, .rollback] := by
  refine ⟨rfl, ?_, ?_, ?_⟩
  · decide
  · decide
  · rfl

/-- The base delay of the exponential backoff in the retry loop of
`run_query` (`time.sleep(0.2 * (2 ** attempt))`). -/
def backoffBase : ℚ := 2 / 10

/-- A convenient concrete connector state for evaluations: live
connection, pool and tunnel, not in CI, empty registry. -/
def baseState : ConnState :=
  { hasConn := true, connClosed := false, hasPool := true, hasTunnel := true,
    isCi := false, isolation := .readCommitted, prepared := [] }

/-- Translation of the retry loop of `run_query` (lines 438 to 477):
up to `max_retries` executions of the statement; a success ends the
loop with the description and rows of that round trip; a caught
transient error (deadlock, failed transaction, connection failure,
operational error) is rolled back, waited out with `0.2 * 2 ^ attempt`
seconds of backoff, and, when it is of connection class and a further
attempt remains (`attempt < max_retries - 1`), followed by a reconnect;
any other error propagates at once; a loop that never breaks raises the
fatal message naming the attempt count.  The first `Nat` argument is
the number of remaining loop iterations, initially `max_retries`. -/
def runAttempts (env : Nat → ExecOut) (q : String) (np maxRetries : Nat) :
    Nat → Nat → Nat → ConnState →
      Except RunFail (Option (List String) × List (List Int)) × ConnState × Nat × List Action
  | 0, _, ctr, st =>
    (.error (.fatal ("Failed to execute query after " ++ toString maxRetries ++ " attempts.")),
     st, ctr, [])
  | remaining + 1, attempt, ctr, st =>
    match env ctr with
    | .ok d rows => (.ok (d, rows), st, ctr + 1, [.exec q np])
    | .err e =>
      if isTransient e then
        let doRec := isConnClass e && attempt + 1 < maxRetries
        let stRec := if doRec then (reconnectFn st).1 else st
        let recActs : List Action := if doRec then [.reconnected] else []
        let r := runAttempts env q np maxRetries remaining (attempt + 1) (ctr + 1) stRec
        (r.1, r.2.1, r.2.2.1,
         [.exec q np, .rollback, .sleep (backoffBase * 2 ^ attempt)] ++ recActs ++ r.2.2.2)
      else (.error (.pg e), st, ctr + 1, [.exec q np])

/-- Closed form of the action trace left by a retry loop whose every
attempt fails with a transient error: per attempt, the execution, a
rollback, the backoff sleep, and a reconnect exactly when the error was
of connection class and a further attempt remains. -/
def failTraceGen (env : Nat → ExecOut) (q : String) (np maxRetries : Nat) :
    Nat → Nat → Nat → List Action
  | _, _, 0 => []
  | ctr, attempt, k + 1 =>
    [.exec q np, .rollback, .sleep (backoffBase * 2 ^ attempt)] ++
    (if connClassOut (env ctr) && attempt + 1 < maxRetries then [.reconnected] else []) ++
    failTraceGen env q np maxRetries (ctr + 1) (attempt + 1) k

/-- The duration of a sleep action, when it is one. -/
def sleepOf : Action → Option ℚ
  | .sleep d => some d
  | _ => none

/-- True exactly on statement-execution actions. -/
def isExecA : Action → Bool
  | .exec _ _ => true
  | _ => false

lemma runAttempts_allFail (env : Nat → ExecOut) (q : String) (np maxRetries : Nat) :
    ∀ (k attempt ctr : Nat) (st : ConnState),
      (∀ j, j < k → errTransient (env (ctr + j)) = true) →
      (runAttempts env q np maxRetries k attempt ctr st).1 =
        .error (.fatal ("Failed to execute query after " ++ toString maxRetries ++
          " attempts.")) ∧
      (runAttempts env q np maxRetries k attempt ctr st).2.2.1 = ctr + k ∧
      (runAttempts env q np maxRetries k attempt ctr st).2.2.2 =
        failTraceGen env q np maxRetries ctr attempt k := by
  intro k
  induction k with
  | zero => intro attempt ctr st _; exact ⟨rfl, rfl, rfl⟩
  | succ k ih =>
    intro attempt ctr st h
    have h0 : errTransient (env ctr) = true := by
      have := h 0 (Nat.succ_pos k)
      simpa using this
    cases henv : env ctr with
    | ok d rows => rw [henv] at h0; exact absurd h0 (by simp [errTransient])
    | err e =>
      have htr : isTransient e = true := by rw [henv] at h0; simpa [errTransient] using h0
      have hrest : ∀ j, j < k → errTransient (env (ctr + 1 + j)) = true := by
        intro j hj
        have := h (j + 1) (by omega)
        simpa [Nat.add_assoc, Nat.add_comm 1 j] using this
      cases hcc : (isConnClass e && attempt + 1 < maxRetries) with
      | false =>
        have ihh := ih (attempt + 1) (ctr + 1) st hrest
        have heq : runAttempts env q np maxRetries (k + 1) attempt ctr st =
            ((runAttempts env q np maxRetries k (attempt + 1) (ctr + 1) st).1,
             (runAttempts env q np maxRetries k (attempt + 1) (ctr + 1) st).2.1,
             (runAttempts env q np maxRetries k (attempt + 1) (ctr + 1) st).2.2.1,
             [.exec q np, .rollback, .sleep (backoffBase * 2 ^ attempt)] ++ [] ++
               (runAttempts env q np maxRetries k (attempt + 1) (ctr + 1) st).2.2.2) := by
          simp [runAttempts, henv, htr, hcc]
        have htrace : failTraceGen env q np maxRetries ctr attempt (k + 1) =
            [.exec q np, .rollback, .sleep (backoffBase * 2 ^ attempt)] ++ [] ++
              failTraceGen env q np maxRetries (ctr + 1) (attempt + 1) k := by
          simp [failTraceGen, connClassOut, henv, hcc]
        refine ⟨?_, ?_, ?_⟩
        · rw [heq]; exact ihh.1
        · rw [heq]
          show (runAttempts env q np maxRetries k (attempt + 1) (ctr + 1) st).2.2.1 =
            ctr + (k + 1)
          rw [ihh.2.1]; omega
        · rw [heq, htrace]
          show [Action.exec q np, .rollback, .sleep (backoffBase * 2 ^ attempt)] ++ [] ++
              (runAttempts env q np maxRetries k (attempt + 1) (ctr + 1) st).2.2.2 =
            [Action.exec q np, .rollback, .sleep (backoffBase * 2 ^ attempt)] ++ [] ++
              failTraceGen env q np maxRetries (ctr + 1) (attempt + 1) k
          rw [ihh.2.2]
      | true =>
        have ihh := ih (attempt + 1) (ctr + 1) (reconnectFn st).1 hrest
        have heq : runAttempts env q np maxRetries (k + 1) attempt ctr st =
            ((runAttempts env q np maxRetries k (attempt + 1) (ctr + 1) (reconnectFn st).1).1,
             (runAttempts env q np maxRetries k (attempt + 1) (ctr + 1) (reconnectFn st).1).2.1,
             (runAttempts env q np maxRetries k (attempt + 1) (ctr + 1)
               (reconnectFn st).1).2.2.1,
             [.exec q np, .rollback, .sleep (backoffBase * 2 ^ attempt)] ++ [.reconnected] ++
               (runAttempts env q np maxRetries k (attempt + 1) (ctr + 1)
                 (reconnectFn st).1).2.2.2) := by
          simp [runAttempts, henv, htr, hcc]
        have htrace : failTraceGen env q np maxRetries ctr attempt (k + 1) =
            [.exec q np, .rollback, .sleep (backoffBase * 2 ^ attempt)] ++ [.reconnected] ++
              failTraceGen env q np maxRetries (ctr + 1) (attempt + 1) k := by
          simp [failTraceGen, connClassOut, henv, hcc]
        refine ⟨?_, ?_, ?_⟩
        · rw [heq]; exact ihh.1
        · rw [heq]
          show (runAttempts env q np maxRetries k (attempt + 1) (ctr + 1)
              (reconnectFn st).1).2.2.1 = ctr + (k + 1)
          rw [ihh.2.1]; omega
        · rw [heq, htrace]
          show [Action.exec q np, .rollback, .sleep (backoffBase * 2 ^ attempt)] ++
              [.reconnected] ++
              (runAttempts env q np maxRetries k (attempt + 1) (ctr + 1)
                (reconnectFn st).1).2.2.2 =
            [Action.exec q np, .rollback, .sleep (backoffBase * 2 ^ attempt)] ++
              [.reconnected] ++
              failTraceGen env q np maxRetries (ctr + 1) (attempt + 1) k
          rw [ihh.2.2]

lemma failTraceGen_sleeps (env : Nat → ExecOut) (q : String) (np maxRetries : Nat) :
    ∀ (k ctr attempt : Nat),
      (failTraceGen env q np maxRetries ctr attempt k).filterMap sleepOf =
        (List.range k).map (fun j => backoffBase * 2 ^ (attempt + j)) := by
  intro k
  induction k with
  | zero => intro ctr attempt; rfl
  | succ k ih =>
    intro ctr attempt
    rw [failTraceGen]
    simp only [List.filterMap_append, List.filterMap_cons, sleepOf, ih (ctr + 1) (attempt + 1)]
    have hf : ((fun j => backoffBase * 2 ^ (attempt + j)) ∘ Nat.succ) =
        (fun j => backoffBase * 2 ^ (attempt + 1 + j)) := by
      funext j
      simp only [Function.comp_apply]
      refine congrArg (fun m => backoffBase * 2 ^ m) (by omega)
    rw [List.range_succ_eq_map, List.map_cons, List.map_map, hf]
    rcases hcc : (connClassOut (env ctr) && attempt + 1 < maxRetries) <;>
      simp [hcc, List.filterMap_cons, sleepOf]

lemma failTraceGen_execCount (env : Nat → ExecOut) (q : String) (np maxRetries : Nat) :
    ∀ (k ctr attempt : Nat),
      (failTraceGen env q np maxRetries ctr attempt k).countP isExecA = k := by
  intro k
  induction k with
  | zero => intro ctr attempt; rfl
  | succ k ih =>
    intro ctr attempt
    rw [failTraceGen]
    simp only [List.countP_append, List.countP_cons, ih (ctr + 1) (attempt + 1)]
    rcases hcc : (connClassOut (env ctr) && attempt + 1 < maxRetries) <;>
      simp [hcc, isExecA, List.countP_cons] <;> omega

lemma failTraceGen_rollbackCount (env : Nat → ExecOut) (q : String) (np maxRetries : Nat) :
    ∀ (k ctr attempt : Nat),
      (failTraceGen env q np maxRetries ctr attempt k).count Action.rollback = k := by
  intro k
  induction k with
  | zero => intro ctr attempt; rfl
  | succ k ih =>
    intro ctr attempt
    rw [failTraceGen]
    simp only [List.count_append, List.count_cons, ih (ctr + 1) (attempt + 1)]
    rcases hcc : (connClassOut (env ctr) && attempt + 1 < maxRetries) <;>
      simp [hcc, List.count_cons] <;> omega

lemma backoff_mono {i j : Nat} (hij : i ≤ j) :
    backoffBase * 2 ^ i ≤ backoffBase * 2 ^ j := by
  have h2 : (2 : ℚ) ^ i ≤ 2 ^ j := by
    refine pow_le_pow_right₀ (by norm_num) hij
  have hb : (0 : ℚ) ≤ backoffBase := by norm_num [backoffBase]
  exact mul_le_mul_of_nonneg_left h2 hb

/-- C4 counterexample: a query whose three attempts all deadlock raises
the fatal failure with the exact message shown, and that message does
not contain the statement text, refuting the part of the claim saying
the message names the statement. -/
theorem c4_counterexample :
    (runAttempts (fun _ => .err .deadlock) "SELECT 1" 0 3 3 0 0 baseState).1 =
      .error (.fatal "Failed to execute query after 3 attempts.") ∧
    ¬ ("SELECT 1".data <:+: "Failed to execute query after 3 attempts.".data) := by
  constructor
  · rfl
  · decide

/-- C4 as amended: a standard-path query whose every attempt raises a
transient-class error is executed exactly `max_retries` times; the
trace equals the closed form `failTraceGen`, which per attempt shows
the execution, a rollback, the backoff sleep of `0.2 * 2 ^ attempt`
seconds, and a reconnect exactly when the failure was of connection
class and a next attempt remains; the sleeps are the doubling sequence
from 0.2 and hence non-decreasing; and the loop then raises the fatal
execution failure whose message names the attempt count (but, contrary
to the original claim, not the statement — see the counterexample). -/
theorem c4_retry_exhaustion (env : Nat → ExecOut) (q : String) (np n : Nat) (st : ConnState)
    (h : ∀ i, i < n → errTransient (env i) = true) :
    (runAttempts env q np n n 0 0 st).1 =
      .error (.fatal ("Failed to execute query after " ++ toString n ++ " attempts.")) ∧
    (runAttempts env q np n n 0 0 st).2.2.2 = failTraceGen env q np n 0 0 n ∧
    (runAttempts env q np n n 0 0 st).2.2.2.countP isExecA = n ∧
    (runAttempts env q np n n 0 0 st).2.2.2.count Action.rollback = n ∧
    (runAttempts env q np n n 0 0 st).2.2.2.filterMap sleepOf =
      (List.range n).map (fun i => backoffBase * 2 ^ i) ∧
    ((runAttempts env q np n n 0 0 st).2.2.2.filterMap sleepOf).Pairwise (· ≤ ·) := by
  have h' : ∀ j, j < n → errTransient (env (0 + j)) = true := by
    intro j hj; simpa using h j hj
  have main := runAttempts_allFail env q np n n 0 0 st h'
  have hsleep : (runAttempts env q np n n 0 0 st).2.2.2.filterMap sleepOf =
      (List.range n).map (fun i => backoffBase * 2 ^ i) := by
    rw [main.2.2, failTraceGen_sleeps]
    simp
  refine ⟨main.1, main.2.2, ?_, ?_, hsleep, ?_⟩
  · rw [main.2.2, failTraceGen_execCount]
  · rw [main.2.2, failTraceGen_rollbackCount]
  · rw [hsleep, List.pairwise_map]
    exact (List.pairwise_lt_range n).imp (fun hab => backoff_mono (Nat.le_of_lt hab))

/-- C4 witness: the amended theorem applied with three attempts all
failing with a connection-class error. -/
theorem c4_retry_exhaustion_witness :
    (∀ i, i < 3 → errTransient ((fun _ => ExecOut.err .connFailure) i) = true) ∧
    (runAttempts (fun _ => ExecOut.err .connFailure) "UPDATE t SET a = 1" 0 3 3 0 0
        baseState).1 =
      .error (.fatal "Failed to execute query after 3 attempts.") := by
  refine ⟨by decide, ?_⟩
  have h := c4_retry_exhaustion (fun _ => ExecOut.err .connFailure) "UPDATE t SET a = 1" 0 3
    baseState (by decide)
  exact h.1

/-- Index of the first occurrence of `sep` in `l`, by scanning. -/
def findSub (sep : List Char) : List Char → Option Nat
  | [] => if sep.isPrefixOf [] then some 0 else none
  | c :: rest =>
    if sep.isPrefixOf (c :: rest) then some 0
    else (findSub sep rest).map (· + 1)

/-- Python `str.split(sep)` for a non-empty separator, with an explicit
fuel bound equal to the input length plus one, always sufficient. -/
def splitGo (sep : List Char) : Nat → List Char → List (List Char)
  | 0, l => [l]
  | fuel + 1, l =>
    match findSub sep l with
    | none => [l]
    | some i => l.take i :: splitGo sep fuel (l.drop (i + sep.length))

/-- Python `str.split(sep)` on character lists. -/
def pySplitOn (sep l : List Char) : List (List Char) := splitGo sep (l.length + 1) l

/-- The `query_type` computed by `run_query` (line 407):
`query.strip().lower().split()[0] if query.strip() else ""`. -/
def queryType (q : String) : String :=
  let s := pyStrip q.data
  if s.isEmpty then "" else String.mk (pyLowerL (s.takeWhile (fun c => !pySpace c)))

/-- Translation of the table-and-column parsing of the bulk-insert
redirect in `run_query` (lines 414 to 424): the table name is the text
between the first `insert into` of the lowered statement and the next
opening parenthesis, stripped; the column list is the text between the
first opening and the next closing parenthesis of the original
statement, split on commas and stripped.  The Python code wraps these
subscript expressions in try/except; the two subscripts that can raise
`IndexError` (no `insert into` in the lowered text, no parenthesis in
the text) become the `none` cases. -/
def parseInsert (q : String) : Option (String × List String) :=
  match pySplitOn "insert into".data (pyLowerL q.data) with
  | _ :: after :: _ =>
    let table := String.mk (pyStrip ((pySplitOn "(".data after).headD []))
    match pySplitOn "(".data q.data with
    | _ :: colsPart :: _ =>
      let colsRaw := (pySplitOn ")".data colsPart).headD []
      some (table, (pySplitOn ",".data colsRaw).map (fun c => String.mk (pyStrip c)))
    | _ => none
  | _ => none

/-- The guard of the bulk-insert redirect (lines 410 and 413): the
statement type is `insert`, the lowered text contains `values`, and the
parameter list is a list holding more than 10 rows (a missing or empty
parameter list is falsy and fails the guard). -/
def bulkCond (q : String) (params : Option (List (List Int))) : Bool :=
  (queryType q == "insert") &&
    (decide ("values".data <:+: pyLowerL q.data)) &&
    (match params with
     | some ps => decide (ps.length > 10)
     | none => false)

/-- The fetch mode of `run_query` and `execute_prepared_statement`. -/
inductive Fetch
  | one
  | all
deriving DecidableEq

/-- What a query call returns: the Python `None`, the boolean returned
by the batch path, a single row mapping, or a list of row mappings. -/
inductive RQRes
  | noRes
  | pyBool (b : Bool)
  | row (m : List (String × Int))
  | rows (ms : List (List (String × Int)))
deriving DecidableEq

/-- Python truthiness of `cursor.description`: false for `None` and for
an empty sequence. -/
def descTruthy : Option (List String) → Bool
  | none => false
  | some l => !l.isEmpty

/-- The commit classification of `run_query` (line 480):
`query_type in ('delete', 'insert', 'update')`. -/
def isIUD (s : String) : Bool := s == "delete" || s == "insert" || s == "update"

/-- The number of parameter items bound to an execution. -/
def npOf (params : Option (List (List Int))) : Nat :=
  match params with
  | some ps => ps.length
  | none => 0

/-- Translation of the tail of `run_query` after the retry loop (lines
479 to 499): on success, statements classified as delete, insert or
update, and statements with a falsy result-set description, commit and
return `None`; others map rows through the column names of the
description, shaped by the fetch mode. -/
def standardRun (env : Nat → ExecOut) (st : ConnState) (ctr : Nat) (q qt : String)
    (fetch : Fetch) (maxRetries np : Nat) :
    Except RunFail RQRes × ConnState × Nat × List Action :=
  match runAttempts env q np maxRetries maxRetries 0 ctr st with
  | (.error f, st', ctr', acts) => (.error f, st', ctr', acts)
  | (.ok (d, rows), st', ctr', acts) =>
    if isIUD qt || !descTruthy d then (.ok .noRes, st', ctr', acts ++ [.commit])
    else
      let names := d.getD []
      match fetch with
      | .one =>
        match rows.head? with
        | some r => (.ok (.row (names.zip r)), st', ctr', acts)
        | none => (.ok .noRes, st', ctr', acts)
      | .all => (.ok (.rows (rows.map (fun r => names.zip r))), st', ctr', acts)

/-- The positional-placeholder list built by
`execute_prepared_statement` for the EXECUTE call. -/
def preparePlaceholders (n : Nat) : String :=
  String.intercalate ", " ((List.range n).map (fun i => "$" ++ toString (i + 1)))

/-- The EXECUTE phase of `execute_prepared_statement` (lines 562 to
589, with the shared except clause of lines 591 to 596): run the
EXECUTE round trip (positional placeholders when a non-empty parameter
list is given), commit and return `None` on a falsy description, fetch
per the fetch mode otherwise; an error rolls back, removes the name
from the registry, and re-raises. -/
def prepExecPhase (env : Nat → ExecOut) (name : String)
    (params : Option (List (List Int))) (fetch : Fetch) (st1 : ConnState) (c1 : Nat) :
    Except RunFail RQRes × ConnState × Nat × List Action :=
  let np := npOf params
  let execSql := match params with
    | some (p :: ps) =>
      "EXECUTE " ++ name ++ "(" ++ preparePlaceholders (p :: ps).length ++ ")"
    | _ => "EXECUTE " ++ name
  match env c1 with
  | .err e =>
    (.error (.pg e), { st1 with prepared := st1.prepared.filter (· != name) },
     c1 + 1, [.exec execSql np, .rollback])
  | .ok d rows =>
    if !descTruthy d then (.ok .noRes, st1, c1 + 1, [.exec execSql np, .commit])
    else
      let names := d.getD []
      match fetch with
      | .one =>
        match rows.head? with
        | some r => (.ok (.row (names.zip r)), st1, c1 + 1, [.exec execSql np])
        | none => (.ok .noRes, st1, c1 + 1, [.exec execSql np])
      | .all =>
        (.ok (.rows (rows.map (fun r => names.zip r))), st1, c1 + 1, [.exec execSql np])

/-- Translation of `DBConnector.execute_prepared_statement` (lines 540
to 598): issue `PREPARE name AS query` when the name is not yet in the
registry (adding it on success), then the EXECUTE phase; an error while
preparing rolls back, removes the name from the registry, and
re-raises. -/
def executePrepared (env : Nat → ExecOut) (st : ConnState) (ctr : Nat) (name q : String)
    (params : Option (List (List Int))) (fetch : Fetch) :
    Except RunFail RQRes × ConnState × Nat × List Action :=
  let prepSql := "PREPARE " ++ name ++ " AS " ++ q
  if name ∈ st.prepared then prepExecPhase env name params fetch st ctr
  else
    match env ctr with
    | .ok _ _ =>
      let r := prepExecPhase env name params fetch
        { st with prepared := name :: st.prepared } (ctr + 1)
      (r.1, r.2.1, r.2.2.1, [.exec prepSql 0] ++ r.2.2.2)
    | .err e =>
      (.error (.pg e), { st with prepared := st.prepared.filter (· != name) },
       ctr + 1, [.exec prepSql 0, .rollback])

/-- True when an execution round trip succeeded. -/
def isOkOut : ExecOut → Bool
  | .ok _ _ => true
  | .err _ => false

/-- The single-statement tail of `run_query` (lines 428 to 501), shared
by every call that is not redirected to `batch_insert`: the
prepared-statement path when `use_prepared` was requested together with
a parameter list, else the standard retry path.  `acc` is the action
trace accumulated before this point.  The prepared-statement cache key
`stmt_{hash(query)}` is embedded as the stable key `stmt_` followed by
the statement text. -/
def singleStmtPath (env : Nat → ExecOut) (q : String) (fetch : Fetch) (maxRetries : Nat)
    (params : Option (List (List Int))) (usePrepared : Bool) (st1 : ConnState) (c1 : Nat)
    (acc : List Action) : Except RunFail RQRes × ConnState × Nat × List Action :=
  if usePrepared && params.isSome then
    let r := executePrepared env st1 c1 ("stmt_" ++ q) q params fetch
    (r.1, r.2.1, r.2.2.1, acc ++ r.2.2.2)
  else
    let r := standardRun env st1 c1 q (queryType q) fetch maxRetries (npOf params)
    (r.1, r.2.1, r.2.2.1, acc ++ r.2.2.2)

/-- Translation of `DBConnector.run_query` (lines 382 to 501): reconnect
when the primary connection is missing or closed; escape single quotes;
classify the statement; when the bulk-insert guard holds, try to parse
the table and columns and redirect to `batch_insert`, falling back to
the single-statement tail when the parse (or the batch call) raises. -/
def runQuery (env : Nat → ExecOut) (st : ConnState) (ctr : Nat) (q : String) (fetch : Fetch)
    (maxRetries : Nat) (params : Option (List (List Int))) (usePrepared : Bool) :
    Except RunFail RQRes × ConnState × Nat × List Action :=
  let entry := if !st.hasConn || st.connClosed then reconnectFn st else (st, [])
  let st0 := entry.1
  let acts0 := entry.2
  let q' := escapeSingleQuotes pyWord q
  if bulkCond q' params then
    match params, parseInsert q' with
    | some ps, some (t, cols) =>
      match batchInsert env st0 ctr t cols ps 1000 with
      | (.ok b, st1, c1, a1) => (.ok (.pyBool b), st1, c1, acts0 ++ a1)
      | (.error _, st1, c1, a1) =>
        singleStmtPath env q' fetch maxRetries params usePrepared st1 c1 (acts0 ++ a1)
    | _, _ => singleStmtPath env q' fetch maxRetries params usePrepared st0 ctr acts0
  else singleStmtPath env q' fetch maxRetries params usePrepared st0 ctr acts0

/-- Translation of the `DBConnector.transaction` context manager (lines
358 to 380): remember the current isolation level, force read
committed, run the block; commit on normal exit, roll back and re-raise
on an exception; restore the remembered level in both cases.  The block
body is an abstract state transformer that may also report an
exception. -/
def transaction (st : ConnState) (body : ConnState → ConnState × Option RunFail) :
    ConnState × List Action × Option RunFail :=
  let old := st.isolation
  match body { st with isolation := .readCommitted } with
  | (stB, none) =>
    ({ stB with isolation := old }, [.setIso .readCommitted, .commit, .setIso old], none)
  | (stB, some e) =>
    ({ stB with isolation := old }, [.setIso .readCommitted, .rollback, .setIso old], some e)

/-- C8: for every use of the `transaction` scoped block, the block body
runs against a state whose isolation level has been forced to read
committed (the hypothesis exhibits the body applied to exactly that
state); on normal exit a commit is issued and no error is reported, on
an exception a rollback is issued and the same error is re-raised; and
in both cases the isolation level in effect before entry is restored on
exit. -/
theorem c8_transaction_spec (st : ConnState) (body : ConnState → ConnState × Option RunFail)
    (stB : ConnState) (r : Option RunFail)
    (h : body { st with isolation := .readCommitted } = (stB, r)) :
    transaction st body =
      ({ stB with isolation := st.isolation },
       [.setIso .readCommitted] ++
         (match r with | none => [Action.commit] | some _ => [Action.rollback]) ++
         [.setIso st.isolation],
       r) := by
  unfold transaction
  rw [h]
  cases r <;> rfl

/-- A concrete state with a non-default isolation level, for witnesses. -/
def stOtherIso : ConnState :=
  { hasConn := true, connClosed := false, hasPool := true, hasTunnel := true,
    isCi := false, isolation := .other 5, prepared := [] }

/-- C8 witness: the theorem applied to a body that succeeds without
touching the state, starting from isolation level `other 5`. -/
theorem c8_transaction_spec_witness :
    ((fun s : ConnState => (s, (none : Option RunFail)))
        { stOtherIso with isolation := .readCommitted } =
      ({ stOtherIso with isolation := .readCommitted }, none)) ∧
    transaction stOtherIso (fun s => (s, none)) =
      ({ { stOtherIso with isolation := .readCommitted } with isolation := stOtherIso.isolation },
       [.setIso .readCommitted] ++
         (match (none : Option RunFail) with
          | none => [Action.commit] | some _ => [Action.rollback]) ++
         [.setIso stOtherIso.isolation],
       none) :=
  ⟨rfl,
   c8_transaction_spec stOtherIso (fun s => (s, none))
     { stOtherIso with isolation := .readCommitted } none rfl⟩

lemma not_mem_filter_ne (name : String) (l : List String) :
    name ∉ l.filter (· != name) := by
  intro hmem
  have h := List.mem_filter.mp hmem
  simp at h

lemma prepExecPhase_error (env : Nat → ExecOut) (name : String)
    (params : Option (List (List Int))) (fetch : Fetch) (st1 : ConnState) (c1 : Nat)
    (f : RunFail) (h : (prepExecPhase env name params fetch st1 c1).1 = .error f) :
    (prepExecPhase env name params fetch st1 c1).2.1.prepared =
      st1.prepared.filter (· != name) ∧
    Action.rollback ∈ (prepExecPhase env name params fetch st1 c1).2.2.2 := by
  unfold prepExecPhase at h ⊢
  cases henv : env c1 with
  | err e => simp [henv]
  | ok d rows =>
    rw [henv] at h
    by_cases hd : (!descTruthy d) = true
    · simp [hd] at h
    · simp only [hd, Bool.not_eq_true, if_neg, Bool.false_eq_true, ite_false] at h
      cases fetch with
      | one =>
        cases hr : rows.head? with
        | some r => rw [hr] at h; simp at h
        | none => rw [hr] at h; simp at h
      | all => simp at h

lemma executePrepared_first_action (env : Nat → ExecOut) (st : ConnState) (ctr : Nat)
    (name q : String) (params : Option (List (List Int))) (fetch : Fetch)
    (hn : name ∉ st.prepared) :
    ((executePrepared env st ctr name q params fetch).2.2.2).head? =
      some (.exec ("PREPARE " ++ name ++ " AS " ++ q) 0) := by
  unfold executePrepared
  simp only [hn, if_neg, ite_false]
  cases henv : env ctr with
  | ok d rows => rfl
  | err e => rfl

/-- C10: whenever `execute_prepared_statement` reports an error, the
final state has the statement name absent from the prepared-statement
registry, the trace contains the rollback issued before the error
propagates, and any later call with the same name (hence the same
query, under the stable cache key) starts by issuing `PREPARE` again
rather than `EXECUTE`-ing a statement that may no longer exist. -/
theorem c10_prepared_failure_cleanup (env : Nat → ExecOut) (st : ConnState) (ctr : Nat)
    (name q : String) (params : Option (List (List Int))) (fetch : Fetch) (f : RunFail)
    (h : (executePrepared env st ctr name q params fetch).1 = .error f) :
    name ∉ (executePrepared env st ctr name q params fetch).2.1.prepared ∧
    Action.rollback ∈ (executePrepared env st ctr name q params fetch).2.2.2 ∧
    ∀ (env2 : Nat → ExecOut) (ctr2 : Nat),
      ((executePrepared env2 (executePrepared env st ctr name q params fetch).2.1 ctr2
          name q params fetch).2.2.2).head? =
        some (.exec ("PREPARE " ++ name ++ " AS " ++ q) 0) := by
  by_cases hn : name ∈ st.prepared
  · have heq : executePrepared env st ctr name q params fetch =
        prepExecPhase env name params fetch st ctr := by
      unfold executePrepared
      simp [hn]
    rw [heq] at h ⊢
    have hp := prepExecPhase_error env name params fetch st ctr f h
    have hnm : name ∉ (prepExecPhase env name params fetch st ctr).2.1.prepared := by
      rw [hp.1]; exact not_mem_filter_ne name st.prepared
    exact ⟨hnm, hp.2, fun env2 ctr2 => executePrepared_first_action env2 _ ctr2 name q
      params fetch hnm⟩
  · cases henv : env ctr with
    | ok d rows =>
      have heq : executePrepared env st ctr name q params fetch =
          ((prepExecPhase env name params fetch
              { st with prepared := name :: st.prepared } (ctr + 1)).1,
           (prepExecPhase env name params fetch
              { st with prepared := name :: st.prepared } (ctr + 1)).2.1,
           (prepExecPhase env name params fetch
              { st with prepared := name :: st.prepared } (ctr + 1)).2.2.1,
           [.exec ("PREPARE " ++ name ++ " AS " ++ q) 0] ++
             (prepExecPhase env name params fetch
               { st with prepared := name :: st.prepared } (ctr + 1)).2.2.2) := by
        unfold executePrepared
        simp [hn, henv]
      rw [heq] at h ⊢
      have hp := prepExecPhase_error env name params fetch
        { st with prepared := name :: st.prepared } (ctr + 1) f h
      have hnm : name ∉ (prepExecPhase env name params fetch
          { st with prepared := name :: st.prepared } (ctr + 1)).2.1.prepared := by
        rw [hp.1]; exact not_mem_filter_ne name _
      refine ⟨hnm, List.mem_append_right _ hp.2, fun env2 ctr2 => ?_⟩
      exact executePrepared_first_action env2 _ ctr2 name q params fetch hnm
    | err e =>
      have heq : executePrepared env st ctr name q params fetch =
          (.error (.pg e), { st with prepared := st.prepared.filter (· != name) },
           ctr + 1, [.exec ("PREPARE " ++ name ++ " AS " ++ q) 0, .rollback]) := by
        unfold executePrepared
        simp [hn, henv]
      rw [heq]
      have hnm : name ∉
          ({ st with prepared := st.prepared.filter (· != name) } : ConnState).prepared :=
        not_mem_filter_ne name st.prepared
      refine ⟨hnm, by simp, fun env2 ctr2 => ?_⟩
      exact executePrepared_first_action env2 _ ctr2 name q params fetch hnm

/-- C10 witness: the theorem applied to a call whose PREPARE round trip
fails, starting from an empty registry. -/
theorem c10_prepared_failure_cleanup_witness :
    ((executePrepared (fun _ => .err (.otherErr "boom")) baseState 0 "stmt_x" "SELECT 1"
        none .one).1 = .error (.pg (.otherErr "boom"))) ∧
    "stmt_x" ∉ (executePrepared (fun _ => .err (.otherErr "boom")) baseState 0 "stmt_x"
        "SELECT 1" none .one).2.1.prepared ∧
    Action.rollback ∈ (executePrepared (fun _ => .err (.otherErr "boom")) baseState 0
        "stmt_x" "SELECT 1" none .one).2.2.2 := by
  have h := c10_prepared_failure_cleanup (fun _ => .err (.otherErr "boom")) baseState 0
    "stmt_x" "SELECT 1" none .one (.pg (.otherErr "boom")) rfl
  exact ⟨rfl, h.1, h.2.1⟩

lemma runAttempts_no_commit (env : Nat → ExecOut) (q : String) (np maxRetries : Nat) :
    ∀ (k attempt ctr : Nat) (st : ConnState),
      Action.commit ∉ (runAttempts env q np maxRetries k attempt ctr st).2.2.2 := by
  intro k
  induction k with
  | zero => intro attempt ctr st; simp [runAttempts]
  | succ k ih =>
    intro attempt ctr st
    cases henv : env ctr with
    | ok d rows => simp [runAttempts, henv]
    | err e =>
      by_cases htr : isTransient e = true
      · cases hcc : (isConnClass e && attempt + 1 < maxRetries) with
        | false => simp [runAttempts, henv, htr, hcc, ih]
        | true => simp [runAttempts, henv, htr, hcc, ih]
      · simp [runAttempts, henv, htr]

/-- C5 counterexample: a `use_prepared=True` call with an INSERT
containing VALUES, 12 parameter rows, and SQL text the simplified
parser cannot handle (two spaces between INSERT and INTO, so the lowered
text has no `insert into` substring) does attempt the redirect and the
parse fails; but the fallback is the prepared-statement path (the first
action is a PREPARE of the statement), not standard single-statement
execution — the trace differs from the standard path on the same
oracle — refuting the claim, which covers every `run_query` call, for
`use_prepared=True` callers. -/
theorem c5_counterexample :
    parseInsert "INSERT  INTO t (a) VALUES (%s)" = none ∧
    bulkCond "INSERT  INTO t (a) VALUES (%s)" (some (List.replicate 12 [1])) = true ∧
    ((runQuery (fun _ => .ok none []) baseState 0 "INSERT  INTO t (a) VALUES (%s)" .one 3
        (some (List.replicate 12 [1])) true).2.2.2).head? =
      some (.exec ("PREPARE stmt_" ++ "INSERT  INTO t (a) VALUES (%s)" ++ " AS " ++
        "INSERT  INTO t (a) VALUES (%s)") 0) ∧
    (runQuery (fun _ => .ok none []) baseState 0 "INSERT  INTO t (a) VALUES (%s)" .one 3
        (some (List.replicate 12 [1])) true).2.2.2 ≠
      (standardRun (fun _ => .ok none []) baseState 0 "INSERT  INTO t (a) VALUES (%s)"
        (queryType "INSERT  INTO t (a) VALUES (%s)") .one 3
        (npOf (some (List.replicate 12 [1])))).2.2.2 := by
  refine ⟨by decide, by decide, by decide, by decide⟩

/-- C5 as amended: when `run_query` receives an INSERT statement
containing VALUES together with a parameter list of more than 10 rows
(the bulk guard `bulkCond`), it parses the table name and column list
out of the (escaped) SQL text and redirects execution to `batch_insert`
with all the supplied rows; when that parsing fails (`parseInsert` is
`none`), it logs a warning and, raising no error from the parsing
itself, falls back to single-statement execution of the whole statement
with all supplied parameters bound together — the standard retry path
when the prepared path was not requested, and the prepared-statement
path (PREPARE and EXECUTE of the same single statement) when
`use_prepared` was requested with parameters, as `singleStmtPath`
selects (see the counterexample).  When the redirected batch call
itself raises, the same except clause also falls back to the
single-statement tail.  Stated for a live connection. -/
theorem c5_bulk_redirect (env : Nat → ExecOut) (st : ConnState) (ctr : Nat) (q : String)
    (fetch : Fetch) (maxRetries : Nat) (ps : List (List Int)) (usePrepared : Bool)
    (hConn : st.hasConn = true) (hOpen : st.connClosed = false)
    (hb : bulkCond (escapeSingleQuotes pyWord q) (some ps) = true) :
    runQuery env st ctr q fetch maxRetries (some ps) usePrepared =
      (match parseInsert (escapeSingleQuotes pyWord q) with
       | some (t, cols) =>
         (match batchInsert env st ctr t cols ps 1000 with
          | (.ok b, st1, c1, a1) => (.ok (.pyBool b), st1, c1, a1)
          | (.error _, st1, c1, a1) =>
            singleStmtPath env (escapeSingleQuotes pyWord q) fetch maxRetries (some ps)
              usePrepared st1 c1 a1)
       | none =>
         singleStmtPath env (escapeSingleQuotes pyWord q) fetch maxRetries (some ps)
           usePrepared st ctr []) := by
  cases hp : parseInsert (escapeSingleQuotes pyWord q) with
  | none =>
    simp only [runQuery, hConn, hOpen, hb, hp]
    simp
  | some tc =>
    obtain ⟨t, cols⟩ := tc
    simp only [runQuery, hConn, hOpen, hb, hp]
    rcases hbi : batchInsert env st ctr t cols ps 1000 with ⟨res, st1, c1, a1⟩
    cases res with
    | ok b => simp [hbi]
    | error e => simp [hbi]

/-- C5 witness: the amended theorem applied to a parseable INSERT with
11 rows on the standard path; the call is redirected to the batch path
and returns its boolean. -/
theorem c5_bulk_redirect_witness :
    baseState.hasConn = true ∧ baseState.connClosed = false ∧
    bulkCond (escapeSingleQuotes pyWord "INSERT INTO t (a) VALUES (%s)")
      (some (List.replicate 11 [1])) = true ∧
    (runQuery (fun _ => .ok none []) baseState 0 "INSERT INTO t (a) VALUES (%s)" .one 3
      (some (List.replicate 11 [1])) false).1 = .ok (.pyBool true) := by
  refine ⟨rfl, rfl, by decide, ?_⟩
  have h := c5_bulk_redirect (fun _ => .ok none []) baseState 0
    "INSERT INTO t (a) VALUES (%s)" .one 3 (List.replicate 11 [1]) false rfl rfl (by decide)
  rw [h]
  rfl

/-- C6 counterexample, in two parts.  First, an INSERT whose parameter
list holds 1001 rows is redirected to the batch path; with every round
trip succeeding, the successful `run_query` call performs two commits
(one per chunk of at most 1000 rows), not exactly one, and returns the
boolean `True` of the batch path rather than `None`.  Second, on the
prepared-statement path the commit decision looks only at the
result-set description, never at the statement classification: a
successful `use_prepared=True` call of `INSERT ... RETURNING id`
(classified INSERT) whose EXECUTE produces a description commits zero
times and returns a row. -/
theorem c6_counterexample :
    (runQuery (fun _ => .ok none []) baseState 0 "INSERT INTO t (a) VALUES (%s)" .one 3
        (some (List.replicate 1001 [1])) false).1 = .ok (.pyBool true) ∧
    ((runQuery (fun _ => .ok none []) baseState 0 "INSERT INTO t (a) VALUES (%s)" .one 3
        (some (List.replicate 1001 [1])) false).2.2.2).count Action.commit = 2 ∧
    queryType "INSERT INTO t (a) VALUES (%s) RETURNING id" = "insert" ∧
    (runQuery (fun n => if n = 0 then .ok none [] else .ok (some ["id"]) [[5]]) baseState 0
        "INSERT INTO t (a) VALUES (%s) RETURNING id" .one 3 (some [[1]]) true).1 =
      .ok (.row [("id", 5)]) ∧
    ((runQuery (fun n => if n = 0 then .ok none [] else .ok (some ["id"]) [[5]]) baseState 0
        "INSERT INTO t (a) VALUES (%s) RETURNING id" .one 3 (some [[1]]) true).2.2.2).count
      Action.commit = 0 := by
  refine ⟨rfl, by decide, by decide, rfl, by decide⟩

lemma count_commit_skip_exec (s : String) (n : Nat) (l : List Action) :
    (Action.exec s n :: l).count Action.commit = l.count Action.commit := by
  rw [List.count_cons]
  simp

lemma prepExecPhase_falsy (env : Nat → ExecOut) (nm : String)
    (params : Option (List (List Int))) (fetch : Fetch) (st1 : ConnState) (c1 : Nat)
    (d : Option (List String)) (rows : List (List Int))
    (hexec : env c1 = .ok d rows) (hd : descTruthy d = false) :
    (prepExecPhase env nm params fetch st1 c1).1 = .ok .noRes ∧
    (prepExecPhase env nm params fetch st1 c1).2.1 = st1 ∧
    (prepExecPhase env nm params fetch st1 c1).2.2.1 = c1 + 1 ∧
    ((prepExecPhase env nm params fetch st1 c1).2.2.2).count Action.commit = 1 := by
  rcases params with _ | ⟨_ | ⟨p, ps⟩⟩ <;>
    simp [prepExecPhase, hexec, hd, List.count_cons]

/-- C6 as amended, settling every single-statement path of `run_query`
(the batch redirect, carved out by the first counterexample, commits
once per chunk and returns `True`).  Part one, the standard path (the
prepared path not selected, so `use_prepared` false or no parameter
list): a successful call whose statement is classified INSERT, UPDATE
or DELETE, or whose result-set description is falsy, returns `None` and
commits exactly once.  Part two, the prepared path (`use_prepared` with
a parameter list): the commit decision is by the result-set description
alone, so a successful call whose EXECUTE round trip produced a falsy
description returns `None` and commits exactly once — while a statement
classified INSERT that produces a description commits zero times and
returns rows, per the second counterexample. -/
theorem c6_single_statement_commit_once :
    (∀ (env : Nat → ExecOut) (st : ConnState) (ctr : Nat) (q : String) (fetch : Fetch)
        (maxRetries : Nat) (params : Option (List (List Int))) (usePrepared : Bool)
        (descr : Option (List String)) (rows : List (List Int)) (st' : ConnState)
        (ctr' : Nat) (acts : List Action),
      st.hasConn = true → st.connClosed = false →
      bulkCond (escapeSingleQuotes pyWord q) params = false →
      (usePrepared && params.isSome) = false →
      runAttempts env (escapeSingleQuotes pyWord q) (npOf params)
          maxRetries maxRetries 0 ctr st = (.ok (descr, rows), st', ctr', acts) →
      (isIUD (queryType (escapeSingleQuotes pyWord q)) || !descTruthy descr) = true →
      runQuery env st ctr q fetch maxRetries params usePrepared =
        (.ok .noRes, st', ctr', acts ++ [.commit]) ∧
      (acts ++ [Action.commit]).count Action.commit = 1) ∧
    (∀ (env : Nat → ExecOut) (st : ConnState) (ctr : Nat) (q : String) (fetch : Fetch)
        (maxRetries : Nat) (params : Option (List (List Int)))
        (d : Option (List String)) (rows : List (List Int)),
      st.hasConn = true → st.connClosed = false →
      bulkCond (escapeSingleQuotes pyWord q) params = false →
      params.isSome = true →
      ("stmt_" ++ escapeSingleQuotes pyWord q ∈ st.prepared ∨ isOkOut (env ctr) = true) →
      env (if "stmt_" ++ escapeSingleQuotes pyWord q ∈ st.prepared then ctr else ctr + 1) =
        .ok d rows →
      descTruthy d = false →
      (runQuery env st ctr q fetch maxRetries params true).1 = .ok .noRes ∧
      ((runQuery env st ctr q fetch maxRetries params true).2.2.2).count
        Action.commit = 1) := by
  constructor
  · intro env st ctr q fetch maxRetries params usePrepared descr rows st' ctr' acts
      hConn hOpen hnb hpath hs hcommit
    have hcond : isIUD (queryType (escapeSingleQuotes pyWord q)) = true ∨
        descTruthy descr = false := by
      by_cases h1 : isIUD (queryType (escapeSingleQuotes pyWord q)) = true
      · exact Or.inl h1
      · right
        have h1' : isIUD (queryType (escapeSingleQuotes pyWord q)) = false := by
          simpa using h1
        rw [h1'] at hcommit
        simpa using hcommit
    constructor
    · simp only [runQuery, hConn, hOpen, hnb]
      simp only [Bool.false_and, Bool.not_true, Bool.or_self, if_neg, Bool.false_eq_true,
        ite_false, Bool.and_false]
      simp only [singleStmtPath, hpath]
      simp only [Bool.false_eq_true, ite_false, standardRun, hs]
      simp [hcond]
    · have hnc := runAttempts_no_commit env (escapeSingleQuotes pyWord q) (npOf params)
        maxRetries maxRetries 0 ctr st
      rw [hs] at hnc
      simp only at hnc
      rw [List.count_append, List.count_eq_zero.mpr hnc]
      rfl
  · intro env st ctr q fetch maxRetries params d rows hConn hOpen hnb hps hprep hexec hd
    have hq : runQuery env st ctr q fetch maxRetries params true =
        singleStmtPath env (escapeSingleQuotes pyWord q) fetch maxRetries params true
          st ctr [] := by
      simp only [runQuery, hConn, hOpen, hnb]
      simp
    rw [hq]
    by_cases hn : "stmt_" ++ escapeSingleQuotes pyWord q ∈ st.prepared
    · rw [if_pos hn] at hexec
      have hex : executePrepared env st ctr ("stmt_" ++ escapeSingleQuotes pyWord q)
          (escapeSingleQuotes pyWord q) params fetch =
          prepExecPhase env ("stmt_" ++ escapeSingleQuotes pyWord q) params fetch st ctr := by
        simp [executePrepared, hn]
      have hph := prepExecPhase_falsy env ("stmt_" ++ escapeSingleQuotes pyWord q) params
        fetch st ctr d rows hexec hd
      constructor
      · simp only [singleStmtPath, hps, Bool.and_true, ite_true, hex]
        exact hph.1
      · simp only [singleStmtPath, hps, Bool.and_true, ite_true, hex, List.nil_append]
        exact hph.2.2.2
    · rw [if_neg hn] at hexec
      have hok : isOkOut (env ctr) = true := by
        rcases hprep with h | h
        · exact absurd h hn
        · exact h
      cases henv : env ctr with
      | err e => rw [henv] at hok; exact absurd hok (by simp [isOkOut])
      | ok dp rp =>
        have hex : executePrepared env st ctr ("stmt_" ++ escapeSingleQuotes pyWord q)
            (escapeSingleQuotes pyWord q) params fetch =
            ((prepExecPhase env ("stmt_" ++ escapeSingleQuotes pyWord q) params fetch
                { st with prepared := ("stmt_" ++ escapeSingleQuotes pyWord q) ::
                  st.prepared } (ctr + 1)).1,
             (prepExecPhase env ("stmt_" ++ escapeSingleQuotes pyWord q) params fetch
                { st with prepared := ("stmt_" ++ escapeSingleQuotes pyWord q) ::
                  st.prepared } (ctr + 1)).2.1,
             (prepExecPhase env ("stmt_" ++ escapeSingleQuotes pyWord q) params fetch
                { st with prepared := ("stmt_" ++ escapeSingleQuotes pyWord q) ::
                  st.prepared } (ctr + 1)).2.2.1,
             [.exec ("PREPARE " ++ ("stmt_" ++ escapeSingleQuotes pyWord q) ++ " AS " ++
                 escapeSingleQuotes pyWord q) 0] ++
               (prepExecPhase env ("stmt_" ++ escapeSingleQuotes pyWord q) params fetch
                  { st with prepared := ("stmt_" ++ escapeSingleQuotes pyWord q) ::
                    st.prepared } (ctr + 1)).2.2.2) := by
          simp [executePrepared, hn, henv]
        have hph := prepExecPhase_falsy env ("stmt_" ++ escapeSingleQuotes pyWord q) params
          fetch { st with prepared := ("stmt_" ++ escapeSingleQuotes pyWord q) ::
            st.prepared } (ctr + 1) d rows hexec hd
        constructor
        · simp only [singleStmtPath, hps, Bool.and_true, ite_true, hex]
          exact hph.1
        · simp only [singleStmtPath, hps, Bool.and_true, ite_true, hex, List.nil_append]
          rw [List.singleton_append, count_commit_skip_exec, hph.2.2.2]

/-- C6 witness: part one of the theorem applied to a DELETE executed
successfully on the first attempt of the standard path, and part two
applied to an UPDATE executed through the prepared path with a falsy
description. -/
theorem c6_single_statement_commit_once_witness :
    (runQuery (fun _ => ExecOut.ok none []) baseState 0 "DELETE FROM t WHERE id = 1" .one 3
        none false =
      (.ok .noRes, baseState, 1, [.exec "DELETE FROM t WHERE id = 1" 0] ++ [.commit])) ∧
    ((runQuery (fun _ => ExecOut.ok none []) baseState 0 "UPDATE t SET a = 2" .one 3
        (some [[2]]) true).1 = .ok .noRes ∧
     ((runQuery (fun _ => ExecOut.ok none []) baseState 0 "UPDATE t SET a = 2" .one 3
        (some [[2]]) true).2.2.2).count Action.commit = 1) := by
  constructor
  · exact (c6_single_statement_commit_once.1 (fun _ => ExecOut.ok none []) baseState 0
      "DELETE FROM t WHERE id = 1" .one 3 none false none [] baseState 1
      [.exec "DELETE FROM t WHERE id = 1" 0] rfl rfl (by decide) rfl (by rfl)
      (by decide)).1
  · exact c6_single_statement_commit_once.2 (fun _ => ExecOut.ok none []) baseState 0
      "UPDATE t SET a = 2" .one 3 (some [[2]]) none [] rfl rfl (by decide) rfl
      (Or.inr rfl) (by decide) rfl

end DB
